import Mathlib

/-!
Verification development for the github-autolabeler rule-evaluation engine.

The Python sources under `src/autolabeler/` are shallowly embedded below:
pure functions become Lean functions, Python exceptions become `Except PyErr`,
Python `dict`s become insertion-ordered association lists with the
replace-in-place update semantics of CPython, and Python strings become
Lean `String`s (with `List Char` used where character-level scanning is
performed, exactly as the Python code indexes into strings).

The sandboxed expression evaluator (`expr.check_string_expression` /
`expr.evaluate_string_expression`, which delegate to Python's `eval` over a
restricted AST) is abstracted as a function parameter
`ev : String -> PyDict Value -> Except PyErr Value`; every algorithm built on
top of it (`format_string_with_expressions`, the labeler resolution loop,
etc.) is embedded faithfully from the source.  A small concrete evaluator
`evalLookup` (bare dotted-name lookup, the behaviour Python `eval` has on a
bare attribute chain over `MatchResult` values) is provided to instantiate
closed witnesses and counterexamples.
-/

/-- The Python exception classes that appear in the embedded code paths. -/
inductive PyErr where
  | syntaxError
  | nameError
  | typeError
  | keyError
  | valueError
  | importError
  | attributeError
  deriving DecidableEq, Repr

/-- Python values flowing through selector matches and label resolution:
strings, ints, booleans, `None`, (insertion-ordered) dicts with string keys,
and lists. -/
inductive Value where
  | str : String → Value
  | int : Int → Value
  | bool : Bool → Value
  | none : Value
  | dict : List (String × Value) → Value
  | list : List Value → Value

/-- A Python `dict` with string keys: an insertion-ordered association list
whose keys are unique by construction (all writes go through
`pyDictUpdate`). -/
abbrev PyDict (α : Type) := List (String × α)

/-- Python `d[k]` lookup (first matching key; keys are unique anyway). -/
def pyLookup (k : String) : PyDict α → Option α
  | [] => Option.none
  | (k', v) :: rest => if k' = k then some v else pyLookup k rest

/-- Python `d[k] = v`: replace the value in place when the key is present
(keeping its original position), otherwise append the new entry. -/
def pyDictUpdate (m : PyDict α) (k : String) (v : α) : PyDict α :=
  if m.any (fun kv => kv.1 = k) then
    m.map (fun kv => if kv.1 = k then (k, v) else kv)
  else
    m ++ [(k, v)]

/-- Python `list(d.values())`. -/
def pyValues (m : PyDict α) : List α :=
  m.map (fun kv => kv.2)

/-- Python `dict(pairs)` / a dict comprehension: later keys overwrite. -/
def pyDictOfPairs (pairs : List (String × α)) : PyDict α :=
  pairs.foldl (fun m kv => pyDictUpdate m kv.1 kv.2) []

/-- Python `d.update(other)` where `other` is iterated in order. -/
def pyDictExtend (m : PyDict α) (other : List (String × α)) : PyDict α :=
  other.foldl (fun acc kv => pyDictUpdate acc kv.1 kv.2) m

/-- Python truthiness of a `Value` (`bool(v)`). -/
def pyTruthy : Value → Bool
  | .str s => ¬ s.isEmpty
  | .int n => n ≠ 0
  | .bool b => b
  | .none => false
  | .dict d => ¬ d.isEmpty
  | .list l => ¬ l.isEmpty

/-- Python `str.strip()` on `List Char`. -/
def pyStripChars (s : List Char) : List Char :=
  ((s.dropWhile Char.isWhitespace).reverse.dropWhile Char.isWhitespace).reverse

/-- Python `str.strip()`. -/
def pyStrip (s : String) : String :=
  ⟨pyStripChars s.data⟩

/-- Python `str.lower()` (ASCII suffices for the color strings involved). -/
def pyLower (s : String) : String :=
  ⟨s.data.map Char.toLower⟩

/-- Python `str(v)`, as needed for splicing expression results back into a
format string.  Containers are rendered in Python `repr` style; no claim
depends on the container rendering. -/
def pyStr : Value → String
  | .str s => s
  | .int n => toString n
  | .bool b => if b then "True" else "False"
  | .none => "None"
  | .dict _ => "\x7b...\x7d"
  | .list _ => "[...]"

/-! ## `utils.py`: `map_color_string` -/

/-- `utils.LABEL_COLOR_CODES`. -/
def LABEL_COLOR_CODES : PyDict String :=
  [("red", "B60205"),
   ("orange", "D93F0B"),
   ("yellow", "FBCA04"),
   ("green", "0E8A16"),
   ("teal", "006B75"),
   ("blue", "1D76DB"),
   ("navy", "0052CC"),
   ("bluer", "0052CC"),
   ("purple", "5319E7")]

/-- One character of the `utils.RGB_COLOR_REGEX` class `[a-fA-F0-9]`. -/
def isHexChar (c : Char) : Bool :=
  ('a' ≤ c ∧ c ≤ 'f') ∨ ('A' ≤ c ∧ c ≤ 'F') ∨ ('0' ≤ c ∧ c ≤ '9')

/-- `re.compile("[a-fA-F0-9]{6}").match(s)`: Python's `re.match` anchors at
the start of the string only, so it succeeds exactly when the string has at
least 6 characters and its first 6 belong to the class. -/
def rgbColorRegexMatch (s : String) : Bool :=
  6 ≤ s.length ∧ (s.data.take 6).all isHexChar

/-- `utils.map_color_string`: resolve a named palette entry
(`LABEL_COLOR_CODES.get(color, color)`), then require an `re.match` of the
6-hex-digit regex, returning the lowercased string; otherwise raise
`ValueError`. -/
def map_color_string (color : String) : Except PyErr String :=
  let c := (pyLookup color LABEL_COLOR_CODES).getD color
  if rgbColorRegexMatch c then .ok (pyLower c) else .error .valueError

/-! ## `actions.py`: `OnMatchFormatAction.from_dict` -/

/-- The compiled `OnMatchFormatAction`: the `perform` format string and the
(possibly empty, from `comment_format or ""`) comment format string. -/
structure OnMatchFormatAction where
  action_format : String
  with_comment_format : String
  deriving DecidableEq, Repr

/-- `OnMatchFormatAction.__init__`. -/
def OnMatchFormatAction.mk' (perform_action_format : String)
    (comment_format : Option String) : OnMatchFormatAction :=
  ⟨perform_action_format, comment_format.getD ""⟩

/-- `OnMatchFormatAction.from_dict`: reject unsupported keys, require BOTH
`perform` and `comment` keys, and accept only the `perform` tokens listed in
`supported_actions = ["open", "close"]`. -/
def OnMatchFormatAction.from_dict (val : PyDict String) :
    Except PyErr OnMatchFormatAction :=
  let supported_keys := ["perform", "comment"]
  let unsupported := (val.map (fun kv => kv.1)).filter
    (fun k => ¬ supported_keys.contains k)
  if ¬ unsupported.isEmpty then .error .valueError
  else
    let missing := supported_keys.filter
      (fun k => ¬ (val.map (fun kv => kv.1)).contains k)
    if ¬ missing.isEmpty then .error .valueError
    else
      let supported_actions := ["open", "close"]
      match pyLookup "perform" val with
      | Option.none => .error .keyError
      | some action =>
        if ¬ supported_actions.contains action then .error .valueError
        else
          match pyLookup "comment" val with
          | Option.none => .error .keyError
          | some comment => .ok (OnMatchFormatAction.mk' action (some comment))

/-! ## `expr.py`: format-string scanning and rendering

`check_string_expression` / `evaluate_string_expression` wrap Python's
`eval` over a whitelisted AST; they are abstracted below as an evaluator
parameter `ev`.  The brace scanner `_get_first_format_span` and the loop of
`format_string_with_expressions` are embedded character-for-character. -/

/-- Python `string.find("\x7b")`: index of the first opening brace. -/
def findOpenBrace : List Char → Option Nat
  | [] => Option.none
  | c :: rest =>
    if c = '{' then some 0 else (findOpenBrace rest).map (· + 1)

/-- The `for i, c in enumerate(string[start+1:])` loop of
`_get_first_format_span`: scan for the closing brace of the span, tracking
`opened_inner_braces`; returns the index (relative to the scanned suffix) of
the closer, or `none` when the suffix ends first.  (The `opened_inner_braces
< 0` break in the source is dead code: the counter never goes negative.) -/
def scanForClose : List Char → Nat → Option Nat
  | [], _ => Option.none
  | c :: rest, depth =>
    if c = '{' then (scanForClose rest (depth + 1)).map (· + 1)
    else if c = '}' then
      if depth = 0 then some 0 else (scanForClose rest (depth - 1)).map (· + 1)
    else (scanForClose rest depth).map (· + 1)

/-- `expr._get_first_format_span`: `.ok none` when there is no opening brace
(the Python function returns `{}`), `.ok (some (start, end))` for the first
balanced span, and a `SyntaxError` for an unterminated span. -/
def getFirstFormatSpan (s : List Char) : Except PyErr (Option (Nat × Nat)) :=
  match findOpenBrace s with
  | Option.none => .ok Option.none
  | some start =>
    match scanForClose (s.drop (start + 1)) 0 with
    | some i => .ok (some (start, start + i + 1))
    | Option.none => .error .syntaxError

theorem findOpenBrace_lt_length {s : List Char} {st : Nat}
    (h : findOpenBrace s = some st) : st < s.length := by
  induction s generalizing st with
  | nil => simp [findOpenBrace] at h
  | cons c rest ih =>
    by_cases hc : c = '{'
    · simp [findOpenBrace, hc] at h
      simp
      omega
    · simp [findOpenBrace, hc, Option.map_eq_some'] at h
      obtain ⟨st', hst', rfl⟩ := h
      have := ih hst'
      simp
      omega

theorem scanForClose_lt_length {l : List Char} {d i : Nat}
    (h : scanForClose l d = some i) : i < l.length := by
  induction l generalizing d i with
  | nil => simp [scanForClose] at h
  | cons c rest ih =>
    by_cases hc : c = '{'
    · simp [scanForClose, hc, Option.map_eq_some'] at h
      obtain ⟨j, hj, rfl⟩ := h
      have := ih hj
      simp
      omega
    · by_cases hcc : c = '}'
      · by_cases hd : d = 0
        · simp [scanForClose, hc, hcc, hd] at h
          simp
          omega
        · simp [scanForClose, hc, hcc, hd, Option.map_eq_some'] at h
          obtain ⟨j, hj, rfl⟩ := h
          have := ih hj
          simp
          omega
      · simp [scanForClose, hc, hcc, Option.map_eq_some'] at h
        obtain ⟨j, hj, rfl⟩ := h
        have := ih hj
        simp
        omega

theorem span_end_lt_length {s : List Char} {st en : Nat}
    (h : getFirstFormatSpan s = .ok (some (st, en))) : en < s.length := by
  unfold getFirstFormatSpan at h
  cases hf : findOpenBrace s with
  | none => simp [hf] at h
  | some start =>
    simp only [hf] at h
    cases hs : scanForClose (s.drop (start + 1)) 0 with
    | none => simp [hs] at h
    | some i =>
      simp only [hs, Except.ok.injEq, Option.some.injEq, Prod.mk.injEq] at h
      obtain ⟨rfl, rfl⟩ := h
      have h1 := findOpenBrace_lt_length hf
      have h2 := scanForClose_lt_length hs
      simp at h2
      omega

/-- The loop of `expr.format_string_with_expressions`, on the character
list: find the first span, strip its inner statement, run it through the
expression sandbox `ev` (errors propagate), splice the stringified result,
and continue after the span.  The `if hlt` guard only packages the fact that
the span end lies inside the string (`span_end_lt_length`) for termination;
its else-branch is unreachable. -/
def formatCharsWithExpressions (ev : String → PyDict Value → Except PyErr Value)
    (vars : PyDict Value) (s : List Char) : Except PyErr (List Char) :=
  match getFirstFormatSpan s with
  | .error e => .error e
  | .ok Option.none => .ok s
  | .ok (some (st, en)) =>
    let stmt := pyStripChars ((s.drop (st + 1)).take (en - (st + 1)))
    match ev ⟨stmt⟩ vars with
    | .error e => .error e
    | .ok v =>
      if hlt : en < s.length then
        match formatCharsWithExpressions ev vars (s.drop (en + 1)) with
        | .error e => .error e
        | .ok tail => .ok (s.take st ++ (pyStr v).data ++ tail)
      else .ok s
termination_by s.length
decreasing_by
  simp only [List.length_drop]
  omega

/-- `expr.format_string_with_expressions` on Lean `String`s. -/
def format_string_with_expressions (ev : String → PyDict Value → Except PyErr Value)
    (vars : PyDict Value) (s : String) : Except PyErr String :=
  (formatCharsWithExpressions ev vars s.data).map (fun l => ⟨l⟩)

/-- Specification-side brace depth of a string: scan left to right, `\x7b`
increments, `\x7d` decrements (saturating at zero, i.e. unmatched closers are
ignored).  The final value counts the opening braces never closed by a
balancing closing brace. -/
def braceDepth : Nat → List Char → Nat
  | d, [] => d
  | d, c :: rest =>
    if c = '{' then braceDepth (d + 1) rest
    else if c = '}' then braceDepth (d - 1) rest
    else braceDepth d rest

theorem braceDepth_append (d : Nat) (a b : List Char) :
    braceDepth d (a ++ b) = braceDepth (braceDepth d a) b := by
  induction a generalizing d with
  | nil => rfl
  | cons c rest ih =>
    by_cases hc : c = '{'
    · simp [braceDepth, hc, ih]
    · by_cases hc2 : c = '}'
      · simp [braceDepth, hc, hc2, ih]
      · simp [braceDepth, hc, hc2, ih]

theorem braceDepth_zero_of_no_open {l : List Char} (h : '{' ∉ l) :
    braceDepth 0 l = 0 := by
  induction l with
  | nil => rfl
  | cons c rest ih =>
    have hc : ¬ c = '{' := fun e => h (by simp [e])
    have hr : '{' ∉ rest := fun m => h (List.mem_cons_of_mem _ m)
    by_cases hc2 : c = '}'
    · simpa [braceDepth, hc, hc2] using ih hr
    · simpa [braceDepth, hc, hc2] using ih hr

theorem no_open_of_findOpenBrace_none {l : List Char}
    (h : findOpenBrace l = Option.none) : '{' ∉ l := by
  induction l with
  | nil => simp
  | cons c rest ih =>
    by_cases hc : c = '{'
    · simp [findOpenBrace, hc] at h
    · simp only [findOpenBrace, hc, if_false, Option.map_eq_none'] at h
      simp only [List.mem_cons, not_or]
      exact ⟨fun e => hc e.symm, ih h⟩

theorem findOpenBrace_take {s : List Char} {st : Nat}
    (h : findOpenBrace s = some st) : '{' ∉ s.take st := by
  induction s generalizing st with
  | nil => simp [findOpenBrace] at h
  | cons c rest ih =>
    by_cases hc : c = '{'
    · simp [findOpenBrace, hc] at h
      simp [← h]
    · simp only [findOpenBrace, hc, if_false, Option.map_eq_some'] at h
      obtain ⟨st', hst', rfl⟩ := h
      simp only [List.take_succ_cons, List.mem_cons, not_or]
      exact ⟨fun e => hc e.symm, ih hst'⟩

theorem findOpenBrace_drop {s : List Char} {st : Nat}
    (h : findOpenBrace s = some st) : s.drop st = '{' :: s.drop (st + 1) := by
  induction s generalizing st with
  | nil => simp [findOpenBrace] at h
  | cons c rest ih =>
    by_cases hc : c = '{'
    · simp [findOpenBrace, hc] at h
      simp [← h, hc]
    · simp only [findOpenBrace, hc, if_false, Option.map_eq_some'] at h
      obtain ⟨st', hst', rfl⟩ := h
      simpa using ih hst'

theorem scanForClose_braceDepth {r : List Char} {d i : Nat}
    (h : scanForClose r d = some i) :
    ∀ v, d + 1 ≤ v → braceDepth v (r.take (i + 1)) = v - (d + 1) := by
  induction r generalizing d i with
  | nil => simp [scanForClose] at h
  | cons c rest ih =>
    intro v hv
    by_cases hc : c = '{'
    · simp [scanForClose, hc, Option.map_eq_some'] at h
      obtain ⟨j, hj, rfl⟩ := h
      have hrec := ih hj (v + 1) (by omega)
      have hstep : braceDepth v (List.take (j + 1 + 1) (c :: rest))
          = braceDepth (v + 1) (rest.take (j + 1)) := by
        simp [braceDepth, hc]
      rw [hstep, hrec]
      omega
    · by_cases hc2 : c = '}'
      · by_cases hd : d = 0
        · have hi : i = 0 := by
            simp [scanForClose, hc, hc2, hd] at h
            omega
          subst hi
          subst hd
          have hstep : braceDepth v (List.take (0 + 1) (c :: rest))
              = braceDepth (v - 1) ([] : List Char) := by
            simp [braceDepth, hc, hc2]
          rw [hstep]
          simp [braceDepth]
        · simp [scanForClose, hc, hc2, hd, Option.map_eq_some'] at h
          obtain ⟨j, hj, rfl⟩ := h
          have hrec := ih hj (v - 1) (by omega)
          have hstep : braceDepth v (List.take (j + 1 + 1) (c :: rest))
              = braceDepth (v - 1) (rest.take (j + 1)) := by
            simp [braceDepth, hc, hc2]
          rw [hstep, hrec]
          omega
      · simp [scanForClose, hc, hc2, Option.map_eq_some'] at h
        obtain ⟨j, hj, rfl⟩ := h
        have hrec := ih hj v hv
        have hstep : braceDepth v (List.take (j + 1 + 1) (c :: rest))
            = braceDepth v (rest.take (j + 1)) := by
          simp [braceDepth, hc, hc2]
        rw [hstep, hrec]

theorem span_braceDepth {s : List Char} {st en : Nat}
    (h : getFirstFormatSpan s = .ok (some (st, en))) :
    braceDepth 0 s = braceDepth 0 (s.drop (en + 1)) := by
  unfold getFirstFormatSpan at h
  cases hf : findOpenBrace s with
  | none => simp [hf] at h
  | some start =>
    simp only [hf] at h
    cases hs : scanForClose (s.drop (start + 1)) 0 with
    | none => simp [hs] at h
    | some i =>
      simp only [hs, Except.ok.injEq, Option.some.injEq, Prod.mk.injEq] at h
      obtain ⟨rfl, rfl⟩ := h
      have htk := findOpenBrace_take hf
      have hdp := findOpenBrace_drop hf
      have hsc := scanForClose_braceDepth hs 1 (by omega)
      conv_lhs => rw [← List.take_append_drop start s]
      rw [braceDepth_append, braceDepth_zero_of_no_open htk, hdp]
      have hone : braceDepth 0 ('{' :: s.drop (start + 1))
          = braceDepth 1 (s.drop (start + 1)) := by
        simp [braceDepth]
      rw [hone]
      conv_lhs => rw [← List.take_append_drop (i + 1) (s.drop (start + 1))]
      rw [braceDepth_append, hsc, List.drop_drop]
      have hidx : start + 1 + (i + 1) = start + i + 1 + 1 := by omega
      rw [hidx]

theorem getFirstFormatSpan_error {s : List Char} {e : PyErr}
    (h : getFirstFormatSpan s = .error e) : e = .syntaxError := by
  unfold getFirstFormatSpan at h
  cases hf : findOpenBrace s with
  | none => simp [hf] at h
  | some start =>
    simp only [hf] at h
    cases hs : scanForClose (s.drop (start + 1)) 0 with
    | none => simp only [hs, Except.error.injEq] at h; exact h.symm
    | some i => simp [hs] at h

theorem getFirstFormatSpan_ok_none {s : List Char}
    (h : getFirstFormatSpan s = .ok Option.none) :
    findOpenBrace s = Option.none := by
  unfold getFirstFormatSpan at h
  cases hf : findOpenBrace s with
  | none => rfl
  | some start =>
    simp only [hf] at h
    cases hs : scanForClose (s.drop (start + 1)) 0 with
    | none => simp [hs] at h
    | some i => simp [hs] at h

theorem formatChars_unbalanced
    (ev : String → PyDict Value → Except PyErr Value) (vars : PyDict Value)
    (hev : ∀ stmt, ∃ v, ev stmt vars = .ok v) :
    ∀ (n : Nat) (s : List Char), s.length ≤ n → braceDepth 0 s ≠ 0 →
      formatCharsWithExpressions ev vars s = .error .syntaxError := by
  intro n
  induction n with
  | zero =>
    intro s hs hbd
    have hnil : s = [] := List.eq_nil_of_length_eq_zero (Nat.le_zero.mp hs)
    subst hnil
    simp [braceDepth] at hbd
  | succ n ih =>
    intro s hs hbd
    rw [formatCharsWithExpressions]
    cases hsp : getFirstFormatSpan s with
    | error e => rw [getFirstFormatSpan_error hsp]
    | ok osp =>
      cases osp with
      | none =>
        exact absurd
          (braceDepth_zero_of_no_open
            (no_open_of_findOpenBrace_none (getFirstFormatSpan_ok_none hsp)))
          hbd
      | some sp =>
        obtain ⟨st, en⟩ := sp
        obtain ⟨v, hv⟩ :=
          hev ⟨pyStripChars ((s.drop (st + 1)).take (en - (st + 1)))⟩
        have hlt := span_end_lt_length hsp
        have hdrop : (s.drop (en + 1)).length ≤ n := by
          simp only [List.length_drop]
          omega
        have hbd' : braceDepth 0 (s.drop (en + 1)) ≠ 0 := by
          rw [← span_braceDepth hsp]
          exact hbd
        dsimp only
        rw [hv]
        have hrec := ih _ hdrop hbd'
        simp only [dif_pos hlt, hrec]

/-! ## `selectors.py`: `MatchResult` and dotted-path reference lookup -/

/-- Python `"...".split(".")` on `List Char` (CPython semantics: the result
is never empty; `"".split(".") == [""]`, `"a..b".split(".") == ["a","","b"]`). -/
def splitDotChars : List Char → List (List Char)
  | [] => [[]]
  | c :: rest =>
    match splitDotChars rest with
    | [] => [[]]
    | h :: t => if c = '.' then [] :: h :: t else (c :: h) :: t

/-- Python `s.split(".")`. -/
def splitOnDot (s : String) : List String :=
  (splitDotChars s.data).map (fun l => ⟨l⟩)

/-- Specification-side dotted-path join: `["a","b"] -> "a.b"`. -/
def joinDotChars : List (List Char) → List Char
  | [] => []
  | [x] => x
  | x :: rest => x ++ '.' :: joinDotChars rest

/-- Specification-side dotted-path join on strings. -/
def joinDot (ps : List String) : String :=
  ⟨joinDotChars (ps.map String.data)⟩

/-- `selectors.MatchResult`: an insertion-ordered dict plus the optional
`reference_key` dotted path. -/
structure MatchResult where
  entries : PyDict Value
  reference_key : Option String

mutual

/-- The per-value conversion of `MatchResult.__init__`:
`MatchResult(value) if type(value) is dict else value` — nested dicts are
rebuilt recursively, everything else (scalars AND lists) is untouched. -/
def matchResultConvert : Value → Value
  | .dict es => .dict (matchResultConvertEntries es)
  | v => v

/-- The `for key, value in d.items()` loop of `MatchResult.__init__` (keys
are already strings here, so `str(key)` is the identity; the
identifier-shaped-key check only logs a warning). -/
def matchResultConvertEntries : List (String × Value) → List (String × Value)
  | [] => []
  | (k, v) :: rest => (k, matchResultConvert v) :: matchResultConvertEntries rest

end

/-- `MatchResult.__init__` from a nested dict plus a reference key. -/
def MatchResult.ofDict (d : PyDict Value) (reference_key : Option String) :
    MatchResult :=
  ⟨matchResultConvertEntries d, reference_key⟩

/-- The `for access in accesses: curr = curr[access]` loop of
`get_reference_value`: successive dict indexing.  A missing key (`KeyError`)
or indexing a non-dict (`TypeError`) collapse to `none`; no claim
distinguishes those exceptions from the no-reference-key `None` result. -/
def walkAccesses : List String → Value → Option Value
  | [], v => some v
  | a :: rest, .dict es =>
    match pyLookup a es with
    | some v => walkAccesses rest v
    | Option.none => Option.none
  | _ :: _, _ => Option.none

/-- `MatchResult.get_reference_value`: `None` when the reference key is
absent or falsy (the empty string), otherwise the dotted-path walk starting
at the `MatchResult` itself. -/
def MatchResult.get_reference_value (m : MatchResult) : Option Value :=
  match m.reference_key with
  | Option.none => Option.none
  | some k =>
    if k = "" then Option.none
    else walkAccesses (splitOnDot k) (.dict m.entries)

/-- A `Value` that is not a dict: the "leaf" shapes of a nested map. -/
def isLeafValue : Value → Bool
  | .dict _ => false
  | _ => true

theorem splitDotChars_ne_nil (l : List Char) : splitDotChars l ≠ [] := by
  cases l with
  | nil => simp [splitDotChars]
  | cons c rest =>
    simp only [splitDotChars]
    cases splitDotChars rest with
    | nil => simp
    | cons h t =>
      by_cases hc : c = '.' <;> simp [hc]

theorem splitDotChars_no_dot {x : List Char} (h : '.' ∉ x) :
    splitDotChars x = [x] := by
  induction x with
  | nil => rfl
  | cons c rest ih =>
    have hc : ¬ c = '.' := fun e => h (by simp [e])
    have hr : '.' ∉ rest := fun m => h (List.mem_cons_of_mem _ m)
    simp [splitDotChars, ih hr, hc]

theorem splitDotChars_append_dot {x : List Char} (l : List Char)
    (h : '.' ∉ x) : splitDotChars (x ++ '.' :: l) = x :: splitDotChars l := by
  induction x with
  | nil =>
    simp only [List.nil_append, splitDotChars]
    cases hs : splitDotChars l with
    | nil => exact absurd hs (splitDotChars_ne_nil l)
    | cons h t => simp
  | cons c rest ih =>
    have hc : ¬ c = '.' := fun e => h (by simp [e])
    have hr : '.' ∉ rest := fun m => h (List.mem_cons_of_mem _ m)
    simp only [List.cons_append, splitDotChars, List.append_eq, ih hr, hc, if_false]

theorem splitDot_joinDot : ∀ (ps : List (List Char)), ps ≠ [] →
    (∀ p ∈ ps, '.' ∉ p) → splitDotChars (joinDotChars ps) = ps := by
  intro ps
  induction ps with
  | nil => intro h; exact absurd rfl h
  | cons x rest ih =>
    intro _ hdot
    cases rest with
    | nil =>
      simp only [joinDotChars]
      exact splitDotChars_no_dot (hdot x (by simp))
    | cons y rest' =>
      have hx : '.' ∉ x := hdot x (by simp)
      simp only [joinDotChars, splitDotChars_append_dot _ hx]
      rw [ih (by simp) (fun p hp => hdot p (List.mem_cons_of_mem _ hp))]

theorem pyLookup_convertEntries (a : String) :
    ∀ es : List (String × Value),
      pyLookup a (matchResultConvertEntries es)
        = (pyLookup a es).map matchResultConvert := by
  intro es
  induction es with
  | nil => rfl
  | cons kv rest ih =>
    obtain ⟨k, v⟩ := kv
    by_cases hk : k = a
    · simp [matchResultConvertEntries, pyLookup, hk]
    · simp [matchResultConvertEntries, pyLookup, hk, ih]

theorem walkAccesses_convert : ∀ (path : List String) (v w : Value),
    walkAccesses path v = some w →
    walkAccesses path (matchResultConvert v) = some (matchResultConvert w) := by
  intro path
  induction path with
  | nil =>
    intro v w h
    simp only [walkAccesses, Option.some.injEq] at h
    simp [walkAccesses, h]
  | cons a rest ih =>
    intro v w h
    cases v with
    | dict es =>
      simp only [walkAccesses] at h
      cases hl : pyLookup a es with
      | none => simp [hl] at h
      | some u =>
        simp only [hl] at h
        have : walkAccesses rest (matchResultConvert u)
            = some (matchResultConvert w) := ih u w h
        simp only [matchResultConvert, walkAccesses,
          pyLookup_convertEntries, hl, Option.map_some']
        exact this
    | str s => simp [walkAccesses] at h
    | int n => simp [walkAccesses] at h
    | bool b => simp [walkAccesses] at h
    | none => simp [walkAccesses] at h
    | list l => simp [walkAccesses] at h

/-! ## `selectors.py`: strategies, `MultiSelector`, `DiffSelector` -/

/-- `selectors.SelectorStrategy`. -/
inductive SelectorStrategy where
  | all
  | any
  | nones
  deriving DecidableEq, Repr

/-- `SelectorStrategy.get_function`: Python `all` / `any` /
`lambda it: all([not v for v in it])`, over the truthiness of each
sub-result. -/
def SelectorStrategy.get_function : SelectorStrategy → (List Bool → Bool)
  | .all => fun it => it.all id
  | .any => fun it => it.any id
  | .nones => fun it => it.all (fun v => !v)

/-- A compiled sub-selector as `MultiSelector` sees it: its
`get_selector_name()` and its `match` method. -/
structure SubSelector (Target : Type) where
  sname : String
  matchFn : Target → List Value

/-- `itertools.product` over lists (leftmost factor varies slowest). -/
def itertoolsProduct : List (List α) → List (List α)
  | [] => [[]]
  | l :: rest => l.flatMap (fun x => (itertoolsProduct rest).map (fun t => x :: t))

/-- `selectors.MultiSelector`: the named sub-selectors, the combination
strategy, and the `_get_supported_target_types()` isinstance check of the
concrete subclass (modelled as a predicate on the target).  `__init__`
rejects an empty selector list; no claim exercises that path. -/
structure MultiSelector (Target : Type) where
  selectors : List (SubSelector Target)
  selector_strategy : SelectorStrategy
  supported_target : Target → Bool

/-- The `selector_matches` dict built by `MultiSelector.match`. -/
def MultiSelector.selectorMatches (ms : MultiSelector Target) (obj : Target) :
    PyDict (List Value) :=
  ms.selectors.foldl (fun m s => pyDictUpdate m s.sname (s.matchFn obj)) []

/-- The defaulted `all_matches` association of `MultiSelector.match`: a
sub-selector with no matches contributes the single-empty-dict placeholder
`[\x7b\x7d]`. -/
def MultiSelector.allMatches (ms : MultiSelector Target) (obj : Target) :
    PyDict (List Value) :=
  (ms.selectorMatches obj).map
    (fun kv => (kv.1, if kv.2.isEmpty then [Value.dict []] else kv.2))

/-- `MultiSelector.match`: unsupported target kinds yield `[]`; then the
strategy function is applied over the presence (non-emptiness) of each
sub-selector's results; on success the Cartesian product of the defaulted
match lists is wrapped into namespaced `MatchResult`s
(`\x7bsub_selector_name: its_match, ...\x7d`). -/
def MultiSelector.matchFn (ms : MultiSelector Target) (obj : Target) :
    List Value :=
  if ¬ ms.supported_target obj then []
  else if ¬ ms.selector_strategy.get_function
      ((pyValues (ms.selectorMatches obj)).map (fun l => !l.isEmpty)) then []
  else
    (itertoolsProduct (pyValues (ms.allMatches obj))).map
      (fun match_set =>
        Value.dict (pyDictOfPairs
          (((ms.allMatches obj).map (fun kv => kv.1)).zip match_set)))

theorem itertoolsProduct_length : ∀ ls : List (List α),
    (itertoolsProduct ls).length = (ls.map List.length).prod := by
  intro ls
  induction ls with
  | nil => rfl
  | cons l rest ih =>
    simp only [itertoolsProduct, List.length_flatMap, List.map_cons, List.prod_cons]
    have hmap : List.map (List.length ∘ fun x =>
          List.map (fun t => x :: t) (itertoolsProduct rest)) l
        = List.replicate l.length ((List.map List.length rest).prod) := by
      induction l with
      | nil => rfl
      | cons a l' ihl =>
        simp only [List.map_cons, List.replicate_succ, ihl, Function.comp_apply,
          List.length_map, ih, List.length_cons]
    rw [hmap, List.sum_replicate, smul_eq_mul]

theorem itertoolsProduct_mem : ∀ (ls : List (List α)) (t : List α),
    t ∈ itertoolsProduct ls → List.Forall₂ (· ∈ ·) t ls := by
  intro ls
  induction ls with
  | nil =>
    intro t ht
    simp [itertoolsProduct] at ht
    simp [ht]
  | cons l rest ih =>
    intro t ht
    simp only [itertoolsProduct, List.mem_flatMap, List.mem_map] at ht
    obtain ⟨x, hx, t', ht', rfl⟩ := ht
    exact List.Forall₂.cons hx (ih t' ht')

/-! ## `selectors.py`: `DiffSelector` -/

/-- The Python floats appearing in `DiffSelector` bounds: either an integer
threshold or `±math.inf`. -/
inductive PyFloat where
  | negInf
  | posInf
  | val (n : Int)
  deriving DecidableEq, Repr

/-- Python `changes < bound` for an int against a `PyFloat`. -/
def intLtPyFloat (n : Int) : PyFloat → Bool
  | .negInf => false
  | .posInf => true
  | .val m => n < m

/-- Python `changes >= bound` for an int against a `PyFloat`. -/
def intGePyFloat (n : Int) : PyFloat → Bool
  | .negInf => true
  | .posInf => false
  | .val m => m ≤ n

/-- A rendering of a `PyFloat` bound into the result dict (the claims never
inspect these entries). -/
def pyFloatValue : PyFloat → Value
  | .negInf => .str "-inf"
  | .posInf => .str "inf"
  | .val n => .int n

/-- `selectors.DiffSelector` (post-`__init__` state). -/
structure DiffSelector where
  minV : PyFloat
  maxV : PyFloat
  change_type : String
  deriving DecidableEq, Repr

/-- `DiffSelector.__init__`: raises `ValueError` when both bounds are
absent or the change type is unknown.  NOTE: the source tests `if not min:`
and `if not max:` — Python falsiness — so a configured bound of `0` is
replaced by the corresponding infinity exactly as an absent bound is. -/
def DiffSelector.init (min max : Option Int) (change_type : String) :
    Except PyErr DiffSelector :=
  if min = Option.none ∧ max = Option.none then .error .valueError
  else
    let minV := match min with
      | Option.none => PyFloat.negInf
      | some n => if n = 0 then PyFloat.negInf else PyFloat.val n
    let maxV := match max with
      | Option.none => PyFloat.posInf
      | some n => if n = 0 then PyFloat.posInf else PyFloat.val n
    if ¬ ["additions", "deletions", "total", "net"].contains change_type then
      .error .valueError
    else .ok ⟨minV, maxV, change_type⟩

/-- The per-PR data consumed by `DiffSelector.match` and `FileLister`:
aggregate additions/deletions plus the per-file breakdown (filename to
(additions, deletions)). -/
structure PRData where
  additions : Int
  deletions : Int
  files : PyDict (Int × Int)

/-- The target-kind split performed by `DiffSelector.match`'s isinstance
checks: a repository (matched unconditionally with only the bounds echoed),
a pull request, or any other object (no match). -/
inductive DiffTarget where
  | repository
  | pullRequest (pr : PRData)
  | unsupported

/-- The `match self._change_type:` statement computing `changes`. -/
def DiffSelector.changesFor (s : DiffSelector) (pr : PRData) :
    Except PyErr Int :=
  if s.change_type = "total" then .ok (pr.additions + pr.deletions)
  else if s.change_type = "additions" then .ok pr.additions
  else if s.change_type = "deletions" then .ok pr.deletions
  else if s.change_type = "net" then .ok (pr.additions - pr.deletions)
  else .error .valueError

/-- `DiffSelector.match`: the `self._min is not None` / `self._max is not
None` guards are vacuously true after `__init__` (the bounds default to
`±math.inf`), leaving the `changes < self._min` and `changes >= self._max`
comparisons: the lower bound is inclusive, the upper bound exclusive. -/
def DiffSelector.matchFn (s : DiffSelector) (obj : DiffTarget) :
    Except PyErr (List Value) :=
  let base : PyDict Value :=
    [("min", pyFloatValue s.minV), ("max", pyFloatValue s.maxV),
     ("type", .str s.change_type)]
  match obj with
  | .unsupported => .ok []
  | .repository => .ok [Value.dict base]
  | .pullRequest pr =>
    match s.changesFor pr with
    | .error e => .error e
    | .ok changes =>
      if intLtPyFloat changes s.minV then .ok []
      else if intGePyFloat changes s.maxV then .ok []
      else
        .ok [Value.dict (base ++
          [("total", .int (pr.additions + pr.deletions)),
           ("additions", .int pr.additions),
           ("deletions", .int pr.deletions),
           ("net", .int (pr.additions - pr.deletions)),
           ("files", .dict (pr.files.map (fun kv => (kv.1,
             Value.dict [("total", .int (kv.2.1 + kv.2.2)),
                         ("additions", .int kv.2.1),
                         ("deletions", .int kv.2.2),
                         ("net", .int (kv.2.1 - kv.2.2))]))))])]

/-! ## `labelers.py` -/

/-- `labelers.LabelParams` (equality in the source is structural over
name/color/description; that `__eq__` only feeds a log message, so plain
structural equality is used here). -/
structure LabelParams where
  name : String
  color : String
  description : String
  post_labelling_action : Option String
  post_labelling_comment : Option String
  deriving DecidableEq, Repr

/-- `LabelParams.__init__`: the description is stripped. -/
def LabelParams.init (name color description : String)
    (post_labelling_comment post_labelling_action : Option String) :
    LabelParams :=
  ⟨name, color, pyStrip description, post_labelling_action,
   post_labelling_comment⟩

/-- The closed union of GitHub objects a labeler is evaluated against. -/
inductive GithubObj (R P I : Type) where
  | repository (r : R)
  | pullRequest (p : P)
  | issue (i : I)

/-- `labelers.SelectorLabeler` (post-`__init__` state: `color` has already
passed through `utils.map_color_string`, see `SelectorLabeler.initL`).  The
`actioner`'s `get_post_labelling_action` / `get_post_labelling_comment`
calls are abstracted as one function from the combined match scope to the
optional (action, comment) pair, raising like any Python call can. -/
structure SelectorLabeler (R P I : Type) where
  name : String
  color : String
  description : String
  condition : Option String
  custom_options : Value
  custom_definitions : PyDict Value
  selectors : List (SubSelector (GithubObj R P I))
  actioner : Option (PyDict Value → Except PyErr (Option String × Option String))

/-- `SelectorLabeler.__init__`: the only failing step is
`utils.map_color_string` on the label color. -/
def SelectorLabeler.initL (label_name label_color label_description : String)
    (condition : Option String) (custom_options : Value)
    (custom_definitions : PyDict Value)
    (selectors_list : List (SubSelector (GithubObj R P I)))
    (actioner : Option (PyDict Value → Except PyErr (Option String × Option String))) :
    Except PyErr (SelectorLabeler R P I) :=
  match map_color_string label_color with
  | .error e => .error e
  | .ok c => .ok ⟨label_name, c, label_description, condition,
      custom_options, custom_definitions, selectors_list, actioner⟩

/-- `SelectorLabeler._run_selectors`: the `selector_name -> match list`
dict. -/
def SelectorLabeler.runSelectors (L : SelectorLabeler R P I)
    (obj : GithubObj R P I) : PyDict (List Value) :=
  L.selectors.foldl (fun m s => pyDictUpdate m s.sname (s.matchFn obj)) []

/-- `SelectorLabeler._run_statement`: strip, then check + evaluate through
the sandbox. -/
def runStatement (ev : String → PyDict Value → Except PyErr Value)
    (statement : String) (vars : PyDict Value) : Except PyErr Value :=
  ev (pyStrip statement) vars

/-- The per-tuple `match_dict` of `_get_labels_for_selector_matches`: the
namespaced selector results, updated with the custom definitions, then the
`opts` key (skipped, with an error log, when a definition already claimed
`opts`). -/
def buildMatchDict (L : SelectorLabeler R P I) (names : List String)
    (match_set : List Value) : PyDict Value :=
  let md := pyDictOfPairs (names.zip match_set)
  let md := pyDictExtend md L.custom_definitions
  if (md.map (fun kv => kv.1)).contains "opts" then md
  else pyDictUpdate md "opts" L.custom_options

/-- The body of the `try:` block run for one product tuple: render the name
and description templates, evaluate the optional condition (a falsy result
skips the tuple, `.ok none`), resolve the optional actioner, and build the
`LabelParams`.  Any raised error is the `except` path. -/
def attemptLabelForTuple (ev : String → PyDict Value → Except PyErr Value)
    (L : SelectorLabeler R P I) (match_dict : PyDict Value) :
    Except PyErr (Option LabelParams) :=
  match format_string_with_expressions ev match_dict L.name with
  | .error e => .error e
  | .ok name =>
    match format_string_with_expressions ev match_dict L.description with
    | .error e => .error e
    | .ok description =>
      let finish : Except PyErr (Option LabelParams) :=
        match L.actioner with
        | Option.none =>
          .ok (some (LabelParams.init name L.color description
            Option.none Option.none))
        | some a =>
          match a match_dict with
          | .error e => .error e
          | .ok (post_action, post_comment) =>
            .ok (some (LabelParams.init name L.color description
              post_comment post_action))
      match L.condition with
      | Option.none => finish
      | some c =>
        match runStatement ev c match_dict with
        | .error e => .error e
        | .ok r => if ¬ pyTruthy r then .ok Option.none else finish

/-- One tuple's outcome: a produced `LabelParams`, or nothing (condition
failed or an exception was logged and swallowed, `if not new: continue`). -/
def processTuple (ev : String → PyDict Value → Except PyErr Value)
    (L : SelectorLabeler R P I) (match_dict : PyDict Value) :
    Option LabelParams :=
  match attemptLabelForTuple ev L match_dict with
  | .ok (some p) => some p
  | _ => Option.none

/-- The `LabelParams` produced tuple by tuple (in `itertools.product`
order) by the main loop of `_get_labels_for_selector_matches`. -/
def producedParams (ev : String → PyDict Value → Except PyErr Value)
    (L : SelectorLabeler R P I) (selector_matches : PyDict (List Value)) :
    List LabelParams :=
  let successful := selector_matches.map
    (fun kv => (kv.1, if kv.2.isEmpty then [Value.dict []] else kv.2))
  (itertoolsProduct (successful.map (fun kv => kv.2))).filterMap
    (fun match_set => processTuple ev L
      (buildMatchDict L (successful.map (fun kv => kv.1)) match_set))

/-- `SelectorLabeler._get_labels_for_selector_matches`: the static
single-label path for selector-free labelers, the all-empty early return,
then the product loop with its name-keyed dedup map
(`new_labels_map[new.name] = new` runs unconditionally: a later entry under
an existing name replaces the earlier one in place; the `!=` comparison
beforehand only emits the conflict warning). -/
def getLabelsForSelectorMatches (ev : String → PyDict Value → Except PyErr Value)
    (L : SelectorLabeler R P I) (selector_matches : PyDict (List Value)) :
    List LabelParams :=
  if L.selectors.isEmpty then
    [LabelParams.init L.name L.color L.description Option.none Option.none]
  else if selector_matches.all (fun kv => kv.2.isEmpty) then []
  else
    pyValues ((producedParams ev L selector_matches).foldl
      (fun m p => pyDictUpdate m p.name p) [])

/-- `SelectorLabeler._get_nonstatic_labels`: selector-free labelers yield
no labels for PRs/issues. -/
def SelectorLabeler.getNonstaticLabels
    (ev : String → PyDict Value → Except PyErr Value)
    (L : SelectorLabeler R P I) (obj : GithubObj R P I) : List LabelParams :=
  if L.selectors.isEmpty then []
  else getLabelsForSelectorMatches ev L (L.runSelectors obj)

/-- `SelectorLabeler.get_labels_for_pr`. -/
def SelectorLabeler.get_labels_for_pr
    (ev : String → PyDict Value → Except PyErr Value)
    (L : SelectorLabeler R P I) (pr : P) : List LabelParams :=
  L.getNonstaticLabels ev (.pullRequest pr)

/-- `SelectorLabeler.get_labels_for_issue`. -/
def SelectorLabeler.get_labels_for_issue
    (ev : String → PyDict Value → Except PyErr Value)
    (L : SelectorLabeler R P I) (issue : I) : List LabelParams :=
  L.getNonstaticLabels ev (.issue issue)

/-- `SelectorLabeler.get_labels_for_repo`: try to render the name and
description templates against the custom definitions only; any exception
falls back to running the selectors. -/
def SelectorLabeler.get_labels_for_repo
    (ev : String → PyDict Value → Except PyErr Value)
    (L : SelectorLabeler R P I) (repo : R) : List LabelParams :=
  match format_string_with_expressions ev L.custom_definitions L.name with
  | .error _ =>
    getLabelsForSelectorMatches ev L (L.runSelectors (.repository repo))
  | .ok name =>
    match format_string_with_expressions ev L.custom_definitions L.description with
    | .error _ =>
      getLabelsForSelectorMatches ev L (L.runSelectors (.repository repo))
    | .ok desc =>
      [LabelParams.init name L.color desc Option.none Option.none]

/-! ## A concrete sandbox evaluator for witnesses and counterexamples -/

/-- A concrete instance of the abstract expression sandbox: evaluates a
bare (dotted) name the way Python `eval` resolves `a.b.c` over `MatchResult`
scopes (`MatchResult.__getattr__` falls back to dict indexing): `NameError`
for an undefined head name, `AttributeError` for a missing attribute or an
attribute access on a non-dict. -/
def evalLookup (stmt : String) (vars : PyDict Value) : Except PyErr Value :=
  match splitOnDot (pyStrip stmt) with
  | [] => .error .syntaxError
  | root :: accesses =>
    match pyLookup root vars with
    | Option.none => .error .nameError
    | some v =>
      accesses.foldl (fun acc a =>
        match acc with
        | .error e => .error e
        | .ok (.dict es) =>
          match pyLookup a es with
          | some w => .ok w
          | Option.none => .error .attributeError
        | .ok _ => .error .attributeError) (.ok v)

/-- An evaluator that accepts every statement (used to discharge the
evaluation-succeeds hypotheses of claim theorems at concrete inputs). -/
def evalConst (stmt : String) (vars : PyDict Value) : Except PyErr Value :=
  .ok (.str "")

unseal formatCharsWithExpressions

/-! ## Claim theorems -/

/-- C3 counterexample: the claim includes `approve` in the accepted action
set, but `supported_actions = ["open", "close"]` in the source, so loading a
well-formed definition performing `approve` raises instead of succeeding. -/
theorem action_approve_rejected_counterexample :
    OnMatchFormatAction.from_dict [("perform", "approve"), ("comment", "c")]
      = .error .valueError := rfl

/-- C3 (amended): with both required keys present, loading a post-action
specification accepts the action token exactly when it belongs to the closed
set \x7bopen, close\x7d (NOT \x7bopen, close, approve\x7d), and raises a
configuration error for any token outside that set; for both members of the
set loading succeeds. -/
theorem action_token_closed_set (action comment : String) :
    OnMatchFormatAction.from_dict [("perform", action), ("comment", comment)]
      = if action = "open" ∨ action = "close"
        then .ok ⟨action, comment⟩ else .error .valueError := by
  by_cases h1 : action = "open"
  · simp [OnMatchFormatAction.from_dict, pyLookup, h1, OnMatchFormatAction.mk']
  · by_cases h2 : action = "close"
    · simp [OnMatchFormatAction.from_dict, pyLookup, h1, h2,
        OnMatchFormatAction.mk']
    · simp [OnMatchFormatAction.from_dict, pyLookup, h1, h2]

/-- C4 counterexample: the claim makes `perform` and `comment` independently
optional, but `from_dict` requires BOTH keys: an action-only definition and
a comment-only definition each raise a missing-required-keys error. -/
theorem action_fields_optional_counterexample :
    OnMatchFormatAction.from_dict [("perform", "open")] = .error .valueError ∧
    OnMatchFormatAction.from_dict [("comment", "done")] = .error .valueError :=
  ⟨rfl, rfl⟩

/-- C4 (amended): the `perform` and `comment` fields are BOTH required:
loading a definition that provides only an action, or only a comment,
raises a missing-required-keys error; providing both (with a valid action
token) succeeds. -/
theorem action_fields_both_required (action comment : String) :
    OnMatchFormatAction.from_dict [("perform", action)] = .error .valueError ∧
    OnMatchFormatAction.from_dict [("comment", comment)] = .error .valueError ∧
    OnMatchFormatAction.from_dict [("perform", "open"), ("comment", comment)]
      = .ok ⟨"open", comment⟩ :=
  ⟨rfl, rfl, rfl⟩

/-- C5 counterexample: `"abcdef0"` is neither a 6-hex-digit value (it has 7
characters) nor a palette name, so per the claim construction must raise; but
`re.match` only anchors at the start, so `map_color_string` accepts it. -/
theorem color_validation_counterexample :
    map_color_string "abcdef0" = .ok "abcdef0" ∧
    ("abcdef0" : String).length ≠ 6 ∧
    pyLookup "abcdef0" LABEL_COLOR_CODES = Option.none :=
  ⟨rfl, by decide, rfl⟩

/-- C5 (amended): constructing a labeler succeeds exactly when, after palette
substitution, the color string has at least 6 characters whose first 6 are
hex digits (`re.match` is a prefix match, not a full match, so trailing
characters are accepted); any other color string raises `ValueError` at load
time. -/
theorem labeler_color_validation {R P I : Type}
    (name color desc : String) (cond : Option String) (opts : Value)
    (defs : PyDict Value) (sels : List (SubSelector (GithubObj R P I)))
    (act : Option (PyDict Value → Except PyErr (Option String × Option String))) :
    (∃ L, SelectorLabeler.initL name color desc cond opts defs sels act = .ok L)
      ↔ (6 ≤ ((pyLookup color LABEL_COLOR_CODES).getD color).length ∧
         (((pyLookup color LABEL_COLOR_CODES).getD color).data.take 6).all
           isHexChar = true) := by
  unfold SelectorLabeler.initL map_color_string
  by_cases hr : rgbColorRegexMatch ((pyLookup color LABEL_COLOR_CODES).getD color)
  · simp only [hr, if_true]
    constructor
    · intro _
      simpa [rgbColorRegexMatch] using hr
    · intro _
      exact ⟨_, rfl⟩
  · simp only [hr, if_false]
    constructor
    · intro ⟨L, hL⟩
      simp at hL
    · intro hp
      exact absurd (by simpa [rgbColorRegexMatch] using hp) hr

/-- C7: for every template string with an opening brace never closed by a
balancing closing brace (positive final brace depth) the render fails with a
`SyntaxError` — provided every inner expression itself evaluates cleanly, so
the failure is the scanner's — rather than returning a truncated or
partially substituted string. -/
theorem render_unbalanced_syntax_error
    (ev : String → PyDict Value → Except PyErr Value) (vars : PyDict Value)
    (s : String) (hbd : braceDepth 0 s.data ≠ 0)
    (hev : ∀ stmt, ∃ v, ev stmt vars = .ok v) :
    format_string_with_expressions ev vars s = .error .syntaxError := by
  unfold format_string_with_expressions
  rw [formatChars_unbalanced ev vars hev s.data.length s.data le_rfl hbd]
  rfl

/-- C7 witness: the spec's own example `"\x7ba"` has one unmatched opening
brace and renders to a `SyntaxError` under an evaluator that accepts every
statement. -/
theorem render_unbalanced_syntax_error_witness :
    braceDepth 0 ("\x7ba" : String).data ≠ 0 ∧
    format_string_with_expressions evalConst [] "\x7ba" = .error .syntaxError :=
  ⟨by decide,
   render_unbalanced_syntax_error evalConst [] "\x7ba" (by decide)
     (fun _ => ⟨.str "", rfl⟩)⟩

/-- C9: rendering is deterministic: the same template evaluated twice
against the same scope yields identical output.  In this embedding the
sandbox evaluator is a pure function and `format_string_with_expressions`
is a pure function of the template and scope, so the two runs are the same
computation. -/
theorem render_deterministic
    (ev : String → PyDict Value → Except PyErr Value) (vars : PyDict Value)
    (s : String) :
    format_string_with_expressions ev vars s
      = format_string_with_expressions ev vars s := rfl

/-- A concrete static (selector-free) labeler over trivial target types. -/
def staticL : SelectorLabeler Unit Unit Unit :=
  ⟨"docs", "0e8a16", " documentation label ", Option.none, .dict [], [], [],
   Option.none⟩

/-- C1 counterexample: the claim asserts all three evaluation operations
return exactly one `LabelParams` for a zero-selector labeler; but
`get_labels_for_pr` goes through `_get_nonstatic_labels`, which returns the
empty list for selector-free labelers (the source comments this is
deliberate, to keep static labels off PRs/issues). -/
theorem static_labeler_counterexample :
    staticL.selectors = [] ∧
    staticL.get_labels_for_pr evalLookup () = [] ∧
    staticL.get_labels_for_issue evalLookup () = [] ∧
    (staticL.get_labels_for_pr evalLookup ()).length ≠ 1 :=
  ⟨rfl, rfl, rfl, by decide⟩

/-- C1 (amended): a labeler with zero selectors is static only for
repository evaluation: `get_labels_for_repo` returns exactly one
`LabelParams` for every target and every evaluator (whether or not the
templates render), while `get_labels_for_pr` and `get_labels_for_issue`
always return the empty list. -/
theorem static_labeler_eval {R P I : Type}
    (ev : String → PyDict Value → Except PyErr Value)
    (L : SelectorLabeler R P I) (hsel : L.selectors = [])
    (r : R) (p : P) (i : I) :
    (L.get_labels_for_repo ev r).length = 1 ∧
    L.get_labels_for_pr ev p = [] ∧
    L.get_labels_for_issue ev i = [] := by
  refine ⟨?_, ?_, ?_⟩
  · unfold SelectorLabeler.get_labels_for_repo
    cases format_string_with_expressions ev L.custom_definitions L.name with
    | error e => simp [getLabelsForSelectorMatches, hsel]
    | ok n =>
      cases format_string_with_expressions ev L.custom_definitions
          L.description with
      | error e => simp [getLabelsForSelectorMatches, hsel]
      | ok d => simp
  · simp [SelectorLabeler.get_labels_for_pr,
      SelectorLabeler.getNonstaticLabels, hsel]
  · simp [SelectorLabeler.get_labels_for_issue,
      SelectorLabeler.getNonstaticLabels, hsel]

/-- C1 witness: the amended statement instantiated at a concrete static
labeler and concrete targets. -/
theorem static_labeler_eval_witness :
    (staticL.get_labels_for_repo evalLookup ()).length = 1 ∧
    staticL.get_labels_for_pr evalLookup () = [] ∧
    staticL.get_labels_for_issue evalLookup () = [] :=
  static_labeler_eval evalLookup staticL rfl () () ()

/-- C10 counterexample: a `DiffSelector` configured with `max=0` against a
PR with 0 changed lines: the claim requires the empty list (change count
equal to the configured max), but `if not max:` treats the 0 bound as
absent, the bound becomes `+inf`, and one match is returned. -/
theorem diff_selector_max_zero_counterexample :
    DiffSelector.init Option.none (some 0) "total"
      = .ok ⟨.negInf, .posInf, "total"⟩ ∧
    (DiffSelector.matchFn ⟨.negInf, .posInf, "total"⟩
        (.pullRequest ⟨0, 0, []⟩)).map List.length = .ok 1 :=
  ⟨rfl, rfl⟩

/-- C10 (amended): in `DiffSelector.match` on a pull request the lower bound
is inclusive and the upper bound exclusive: a change count equal to the
configured min yields one match (shown with no max configured), and a change
count equal to the configured max yields the empty list PROVIDED the
configured max is nonzero — a configured bound of `0` is Python-falsy and is
replaced by the corresponding infinity in `__init__`. -/
theorem diff_selector_bounds (mn mx : Option Int) (ct : String)
    (sel : DiffSelector) (pr : PRData) (m : Int)
    (hinit : DiffSelector.init mn mx ct = .ok sel)
    (hch : sel.changesFor pr = .ok m) :
    ((mn = some m ∧ mx = Option.none) →
      (sel.matchFn (.pullRequest pr)).map List.length = .ok 1) ∧
    ((mx = some m ∧ m ≠ 0) → sel.matchFn (.pullRequest pr) = .ok []) := by
  unfold DiffSelector.init at hinit
  by_cases hboth : mn = Option.none ∧ mx = Option.none
  · simp [hboth.1, hboth.2] at hinit
  · rw [if_neg hboth] at hinit
    by_cases hct : ["additions", "deletions", "total", "net"].contains ct
    · rw [if_neg (not_not_intro hct)] at hinit
      simp only [Except.ok.injEq] at hinit
      subst hinit
      constructor
      · rintro ⟨hmn, hmx⟩
        subst hmn
        subst hmx
        dsimp only at hch
        unfold DiffSelector.matchFn
        dsimp only
        rw [hch]
        have h1 : intLtPyFloat m
            (if m = 0 then PyFloat.negInf else PyFloat.val m) = false := by
          by_cases hm : m = 0 <;> simp [hm, intLtPyFloat]
        have h2 : intGePyFloat m PyFloat.posInf = false := by
          simp [intGePyFloat]
        simp [h1, h2, Except.map]
      · rintro ⟨hmx, hm⟩
        subst hmx
        dsimp only at hch
        unfold DiffSelector.matchFn
        dsimp only
        rw [hch]
        dsimp only
        split
        · rfl
        · split
          · rfl
          · rename_i h1 h2
            exfalso
            apply h2
            simp [hm, intGePyFloat]
    · rw [if_pos hct] at hinit
      simp at hinit

/-- C10 witness: min 10, no max, a PR totalling exactly 10 changed lines —
one match; discharging the amended theorem's hypotheses concretely. -/
theorem diff_selector_bounds_witness :
    (DiffSelector.matchFn ⟨.val 10, .posInf, "total"⟩
        (.pullRequest ⟨7, 3, []⟩)).map List.length = .ok 1 :=
  (diff_selector_bounds (some 10) Option.none "total"
      ⟨.val 10, .posInf, "total"⟩ ⟨7, 3, []⟩ 10 rfl rfl).1 ⟨rfl, rfl⟩

/-- A labeler whose description template renders differently per selector
match, so distinct tuples produce distinct `LabelParams` under one name. -/
def conflictL : SelectorLabeler Unit Unit Unit :=
  ⟨"n", "ff0000", "\x7bs.x\x7d", Option.none, .dict [], [],
   [⟨"s", fun _ => []⟩], Option.none⟩

/-- A selector-matches dict giving the `s` selector two matches that render
the description to "1" and "2" respectively. -/
def conflictSM : PyDict (List Value) :=
  [("s", [Value.dict [("x", .str "1")], Value.dict [("x", .str "2")]])]

/-- C2 counterexample: two tuples produce differing `LabelParams` under the
resolved name `n` (descriptions "1" then "2"); the claim says the FIRST stays
in the returned list, but `new_labels_map[new.name] = new` runs
unconditionally, so the returned list holds the SECOND. -/
theorem dedup_first_wins_counterexample :
    producedParams evalLookup conflictL conflictSM
      = [⟨"n", "ff0000", "1", Option.none, Option.none⟩,
         ⟨"n", "ff0000", "2", Option.none, Option.none⟩] ∧
    getLabelsForSelectorMatches evalLookup conflictL conflictSM
      = [⟨"n", "ff0000", "2", Option.none, Option.none⟩] ∧
    (⟨"n", "ff0000", "2", Option.none, Option.none⟩ : LabelParams)
      ≠ ⟨"n", "ff0000", "1", Option.none, Option.none⟩ :=
  ⟨rfl, rfl, by decide⟩

/-- C2 (amended): during `SelectorLabeler` resolution, when two match tuples
produce `LabelParams` with the same resolved name, the LAST one produced for
that name is the one present in the returned label list; a later differing
tuple logs a conflict warning but REPLACES the earlier entry (in its original
position). -/
theorem dedup_last_wins {R P I : Type}
    (ev : String → PyDict Value → Except PyErr Value)
    (L : SelectorLabeler R P I) (sm : PyDict (List Value))
    (p1 p2 : LabelParams)
    (hsel : L.selectors.isEmpty = false)
    (hne : sm.all (fun kv => kv.2.isEmpty) = false)
    (hprod : producedParams ev L sm = [p1, p2])
    (hname : p2.name = p1.name) :
    getLabelsForSelectorMatches ev L sm = [p2] := by
  unfold getLabelsForSelectorMatches
  rw [if_neg (by simp [hsel]), if_neg (by simp [hne])]
  rw [hprod]
  simp [pyDictUpdate, pyValues, hname]

/-- C2 witness: the amended statement at the concrete conflicting scenario:
the second tuple's `LabelParams` (description "2") is the one returned. -/
theorem dedup_last_wins_witness :
    getLabelsForSelectorMatches evalLookup conflictL conflictSM
      = [⟨"n", "ff0000", "2", Option.none, Option.none⟩] :=
  dedup_last_wins evalLookup conflictL conflictSM
    ⟨"n", "ff0000", "1", Option.none, Option.none⟩
    ⟨"n", "ff0000", "2", Option.none, Option.none⟩
    rfl rfl rfl rfl

theorem joinDotChars_ne_nil {ps : List (List Char)} (hps : ps ≠ [])
    (hhead : ∀ p ∈ ps, p ≠ []) : joinDotChars ps ≠ [] := by
  cases ps with
  | nil => exact absurd rfl hps
  | cons x rest =>
    cases rest with
    | nil => exact hhead x (by simp)
    | cons y rest' => simp [joinDotChars]

theorem splitOnDot_joinDot (ps : List String) (hps : ps ≠ [])
    (hcomp : ∀ p ∈ ps, '.' ∉ p.data) : splitOnDot (joinDot ps) = ps := by
  unfold splitOnDot joinDot
  have hdata : (⟨joinDotChars (ps.map String.data)⟩ : String).data
      = joinDotChars (ps.map String.data) := rfl
  rw [hdata, splitDot_joinDot (ps.map String.data)
    (by simpa using hps)
    (by intro l hl
        simp only [List.mem_map] at hl
        obtain ⟨p, hp, rfl⟩ := hl
        exact hcomp p hp)]
  have : ∀ qs : List String, (qs.map String.data).map
      (fun l => (⟨l⟩ : String)) = qs := by
    intro qs
    induction qs with
    | nil => rfl
    | cons q rest ih => simp [ih]
  exact this ps

/-- C8: round-trip: a `MatchResult` built from a nested map with a
dotted-path reference key (nonempty, dot-free components) supports
reference-key lookup returning exactly the leaf value stored at that path in
the original map. -/
theorem matchresult_reference_roundtrip (d : PyDict Value) (path : List String)
    (v : Value) (hpath : path ≠ [])
    (hcomp : ∀ p ∈ path, p ≠ "" ∧ '.' ∉ p.data)
    (hleaf : isLeafValue v = true)
    (hwalk : walkAccesses path (Value.dict d) = some v) :
    (MatchResult.ofDict d (some (joinDot path))).get_reference_value = some v := by
  unfold MatchResult.get_reference_value MatchResult.ofDict
  dsimp only
  have hne : ¬ (joinDot path = "") := by
    intro he
    have : joinDotChars (path.map String.data) = [] := by
      have := congrArg String.data he
      simpa [joinDot] using this
    exact joinDotChars_ne_nil (by simpa using hpath)
      (by intro l hl
          simp only [List.mem_map] at hl
          obtain ⟨p, hp, rfl⟩ := hl
          intro hpe
          exact (hcomp p hp).1 (by
            cases p
            simp at hpe
            simp [hpe])) this
  rw [if_neg hne, splitOnDot_joinDot path hpath (fun p hp => (hcomp p hp).2)]
  have hconv := walkAccesses_convert path (Value.dict d) v hwalk
  have hleafeq : matchResultConvert v = v := by
    cases v <;> first | rfl | simp [isLeafValue] at hleaf
  rw [hleafeq] at hconv
  simpa [matchResultConvert] using hconv

/-- C8 witness: the nested map `\x7b"a": \x7b"b": "x"\x7d\x7d` with
reference key `a.b` round-trips to the original leaf `"x"`. -/
theorem matchresult_reference_roundtrip_witness :
    (MatchResult.ofDict [("a", Value.dict [("b", Value.str "x")])]
        (some (joinDot ["a", "b"]))).get_reference_value
      = some (Value.str "x") :=
  matchresult_reference_roundtrip
    [("a", Value.dict [("b", Value.str "x")])] ["a", "b"] (Value.str "x")
    (by simp) (by decide) rfl rfl

theorem defaulted_lengths (sm : PyDict (List Value)) :
    (pyValues (sm.map
        (fun kv => (kv.1, if kv.2.isEmpty then [Value.dict []] else kv.2)))).map
      List.length
      = sm.map (fun kv => if kv.2.isEmpty then 1 else kv.2.length) := by
  induction sm with
  | nil => rfl
  | cons kv rest ih =>
    by_cases he : kv.2.isEmpty
    · simpa [pyValues, he] using ih
    · simpa [pyValues, he] using ih

/-- C6: when a `MultiSelector`'s strategy check succeeds on a supported
target, the number of combined `MatchResult`s equals the product of the
sub-selectors' match-list lengths (an empty list counting as 1 via the
empty-dict placeholder), and every combined result is the namespaced dict
pairing each sub-selector's name with one member of its (defaulted) match
list. -/
theorem multi_selector_product {Target : Type} (ms : MultiSelector Target)
    (obj : Target) (hsup : ms.supported_target obj = true)
    (hstrat : ms.selector_strategy.get_function
      ((pyValues (ms.selectorMatches obj)).map (fun l => !l.isEmpty)) = true) :
    (ms.matchFn obj).length
      = ((ms.selectorMatches obj).map
          (fun kv => if kv.2.isEmpty then 1 else kv.2.length)).prod
    ∧ ∀ v ∈ ms.matchFn obj, ∃ t,
        List.Forall₂ (· ∈ ·) t (pyValues (ms.allMatches obj)) ∧
        v = Value.dict (pyDictOfPairs
          (((ms.allMatches obj).map (fun kv => kv.1)).zip t)) := by
  have hrw : ms.matchFn obj
      = (itertoolsProduct (pyValues (ms.allMatches obj))).map
          (fun match_set => Value.dict (pyDictOfPairs
            (((ms.allMatches obj).map (fun kv => kv.1)).zip match_set))) := by
    unfold MultiSelector.matchFn
    rw [if_neg (by simp [hsup]), if_neg (by simp [hstrat])]
  constructor
  · rw [hrw, List.length_map, itertoolsProduct_length]
    have hall : ms.allMatches obj = (ms.selectorMatches obj).map
        (fun kv => (kv.1, if kv.2.isEmpty then [Value.dict []] else kv.2)) := rfl
    rw [hall, defaulted_lengths]
  · intro v hv
    rw [hrw] at hv
    simp only [List.mem_map] at hv
    obtain ⟨t, ht, rfl⟩ := hv
    exact ⟨t, itertoolsProduct_mem _ _ ht, rfl⟩

/-- The spec's own example: two sub-selectors producing 2 and 3 matches. -/
def multiAB : MultiSelector Nat :=
  ⟨[⟨"a", fun _ => [Value.int 1, Value.int 2]⟩,
    ⟨"b", fun _ => [Value.int 3, Value.int 4, Value.int 5]⟩],
   .any, fun _ => true⟩

/-- C6 witness: sub-selectors producing 2 and 3 matches under strategy ANY
yield 6 combined `MatchResult`s. -/
theorem multi_selector_product_witness : (multiAB.matchFn 0).length = 6 :=
  ((multi_selector_product multiAB 0 rfl rfl).1).trans rfl
